import Mathlib

/-!
Verification development for the CareerAgent job-extraction pipeline.

The definitions below are a shallow embedding of the Python sources:
  * `backend/manual_parser.py`  (regex field extractors, deterministic parser)
  * `backend/tools/google_cse_linkedin_search.py` (search orchestrator)
  * `backend/tools/job_search_agent.py` (the search tool attaching metadata)
  * `backend/schema.py` (pydantic validators)

Python's `re` module is embedded by a small backtracking regex engine
(`Re`/`matchRe`/`reSearch`) covering exactly the constructs used by the
source patterns: literals (case-sensitive and IGNORECASE), character
classes, greedy/lazy `+`, greedy `*`, bounded `{m,n}` repetition on
classes, optional groups, alternation, one-level capturing groups, `$`,
and `\b`.  Character-level predicates (`\s`, `\d`, `\w`) use their ASCII
meaning, which matches every input the claims evaluate.
-/

namespace CareerAgent

/-- ASCII whitespace, Python's `\s` class (and `str.strip` default set). -/
def pyIsSpace (c : Char) : Bool :=
  c = ' ' || c = '\t' || c = '\n' || c = '\r' || c = '\x0b' || c = '\x0c'

/-- Python `\w`: alphanumeric or underscore (ASCII). -/
def pyIsWord (c : Char) : Bool :=
  c.isAlpha || c.isDigit || c = '_'

/-- Case-insensitive character comparison (IGNORECASE literals). -/
def ciEq (a b : Char) : Bool := a.toLower == b.toLower

/-- `needle` occurs as a contiguous substring of `hay` (Python's `in`). -/
def listPrefixOf : List Char → List Char → Bool
  | [], _ => true
  | _ :: _, [] => false
  | a :: as, b :: bs => a == b && listPrefixOf as bs

def listInfixOf (n : List Char) : List Char → Bool
  | [] => n.isEmpty
  | c :: cs => listPrefixOf n (c :: cs) || listInfixOf n cs

def strIn (needle hay : String) : Bool := listInfixOf needle.data hay.data

/-- Python `str.strip()` (no argument): trim `pyIsSpace` on both ends. -/
def pyStrip (s : String) : String :=
  String.mk (((s.data.dropWhile pyIsSpace).reverse.dropWhile pyIsSpace).reverse)

/-- Python `str.lower()` (ASCII contents in all inputs considered). -/
def pyLower (s : String) : String := String.mk (s.data.map Char.toLower)

/-- Python slice `xs[:n]` for an `int` bound `n`. -/
def pySlice {α : Type} (xs : List α) (n : Int) : List α :=
  if n < 0 then xs.take (xs.length + n).toNat else xs.take n.toNat

/-! ### Regex engine -/

/-- Regex abstract syntax: exactly the constructs used by the source
patterns.  Quantifiers apply to single-character classes (as they do in
every source pattern), which keeps backtracking finite. -/
inductive Re where
  | eps : Re
  | cls : (Char → Bool) → Re
  | seq : Re → Re → Re
  | alt : Re → Re → Re
  | grp : Nat → Re → Re
  | starG : (Char → Bool) → Re
  | plusG : (Char → Bool) → Re
  | plusL : (Char → Bool) → Re
  | repR : (Char → Bool) → Nat → Nat → Re
  | opt : Re → Re
  | endA : Re
  | wordB : Re

/-- Case-sensitive literal. -/
def litS (s : String) : Re :=
  s.data.foldr (fun c r => Re.seq (Re.cls (fun x => x == c)) r) Re.eps

/-- IGNORECASE literal. -/
def litCI (s : String) : Re :=
  s.data.foldr (fun c r => Re.seq (Re.cls (ciEq c)) r) Re.eps

def altList : List Re → Re
  | [] => Re.eps
  | [r] => r
  | r :: rs => Re.alt r (altList rs)

abbrev Groups := List (Nat × List Char)

/-- Number of consecutive characters of `orig` from `pos` in class `f`. -/
def runLen (f : Char → Bool) (orig : List Char) (pos : Nat) : Nat :=
  ((orig.drop pos).takeWhile f).length

/-- Try continuation at each candidate end position in order (models the
backtracking preference order of a quantifier). -/
def tryPos {α : Type} (k : Nat → Option α) : List Nat → Option α
  | [] => none
  | n :: ns =>
    match k n with
    | some r => some r
    | none => tryPos k ns

/-- Is position `pos` a word boundary of `orig` (Python `\b`)? -/
def atWordB (orig : List Char) (pos : Nat) : Bool :=
  let before : Bool := pos != 0 && (orig.getD (pos - 1) ' ' |> pyIsWord)
  let after : Bool := (orig.get? pos).elim false pyIsWord
  before != after

/-- Does `$` hold at `pos` (end of string, or just before a final newline)? -/
def atEndA (orig : List Char) (pos : Nat) : Bool :=
  pos == orig.length || (pos + 1 == orig.length && orig.getD pos ' ' == '\n')

/-- CPS backtracking matcher anchored at `pos` of `orig`.  The
continuation receives the end position and accumulated groups; trying
alternatives in source order reproduces Python `re` preference order. -/
def matchRe {α : Type} : Re → List Char → Nat → Groups →
    (Nat → Groups → Option α) → Option α
  | .eps, _, pos, gs, k => k pos gs
  | .cls f, orig, pos, gs, k =>
    match orig.get? pos with
    | some c => if f c then k (pos + 1) gs else none
    | none => none
  | .seq a b, orig, pos, gs, k =>
    matchRe a orig pos gs (fun pos' gs' => matchRe b orig pos' gs' k)
  | .alt a b, orig, pos, gs, k =>
    match matchRe a orig pos gs k with
    | some r => some r
    | none => matchRe b orig pos gs k
  | .grp n r, orig, pos, gs, k =>
    matchRe r orig pos gs
      (fun pos' gs' => k pos' ((n, (orig.drop pos).take (pos' - pos)) :: gs'))
  | .starG f, orig, pos, gs, k =>
    tryPos (fun p => k p gs)
      (((List.range (runLen f orig pos + 1)).reverse).map (pos + ·))
  | .plusG f, orig, pos, gs, k =>
    tryPos (fun p => k p gs)
      (((List.range' 1 (runLen f orig pos)).reverse).map (pos + ·))
  | .plusL f, orig, pos, gs, k =>
    tryPos (fun p => k p gs) ((List.range' 1 (runLen f orig pos)).map (pos + ·))
  | .repR f lo hi, orig, pos, gs, k =>
    let r := min (runLen f orig pos) hi
    if r < lo then none
    else tryPos (fun p => k p gs)
      (((List.range' lo (r + 1 - lo)).reverse).map (pos + ·))
  | .opt r, orig, pos, gs, k =>
    match matchRe r orig pos gs k with
    | some res => some res
    | none => k pos gs
  | .endA, orig, pos, gs, k => if atEndA orig pos then k pos gs else none
  | .wordB, orig, pos, gs, k => if atWordB orig pos then k pos gs else none

/-- A successful search: start position, end position, captured groups. -/
abbrev MRes := Nat × Nat × Groups

/-- First `some` over a list of candidate start positions. -/
def firstSome {α β : Type} (f : α → Option β) : List α → Option β
  | [] => none
  | x :: xs =>
    match f x with
    | some r => some r
    | none => firstSome f xs

def matchAt (r : Re) (orig : List Char) (pos : Nat) : Option MRes :=
  matchRe r orig pos [] (fun e gs => some (pos, e, gs))

/-- Python `re.search` from position `pos`: leftmost match. -/
def searchFrom (r : Re) (orig : List Char) (pos : Nat) : Option MRes :=
  firstSome (matchAt r orig) (List.range' pos (orig.length + 1 - pos))

def reSearch (r : Re) (s : String) : Option MRes := searchFrom r s.data 0

/-- Contents of capturing group `n` (empty when absent; every source
pattern captures its group on each successful match). -/
def groupVal (n : Nat) (m : MRes) : String :=
  String.mk (((m.2.2.find? (fun g => g.1 == n)).map Prod.snd).getD [])

/-- Whole matched text, `group(0)`, read back from the subject string. -/
def group0 (orig : List Char) (m : MRes) : String :=
  String.mk ((orig.drop m.1).take (m.2.1 - m.1))

/-- Python `re.findall` where the pattern has exactly one capturing group
(true of every pattern `findall` is applied to in the source): the list
of `group(1)` captures of successive non-overlapping matches.  After an
empty match, scanning resumes one character later, as in Python. -/
def findAllGo (r : Re) (orig : List Char) : Nat → Nat → List String
  | _, 0 => []
  | pos, fuel + 1 =>
    match searchFrom r orig pos with
    | none => []
    | some m =>
      if m.2.1 ≤ m.1 then
        groupVal 1 m :: findAllGo r orig (m.1 + 1) fuel
      else
        groupVal 1 m :: findAllGo r orig m.2.1 fuel

def reFindAll (r : Re) (s : String) : List String :=
  findAllGo r s.data 0 (s.data.length + 1)

/-- Python `re.sub(pattern, "", s)`: delete every non-overlapping match. -/
def subGo (r : Re) (orig : List Char) : Nat → Nat → List Char
  | pos, 0 => orig.drop pos
  | pos, fuel + 1 =>
    match searchFrom r orig pos with
    | none => orig.drop pos
    | some m =>
      if m.2.1 ≤ m.1 then
        (orig.drop pos).take (m.1 - pos) ++
          match orig.get? m.1 with
          | some c => c :: subGo r orig (m.1 + 1) fuel
          | none => []
      else
        (orig.drop pos).take (m.1 - pos) ++ subGo r orig m.2.1 fuel

def reSubEmpty (r : Re) (s : String) : String :=
  String.mk (subGo r s.data 0 (s.data.length + 1))

/-! ### Field extractors (`backend/manual_parser.py`, duplicated verbatim
inside `GoogleCSELinkedInSearcher`) -/

/-- Class `[^·\-\|]`. -/
def notSep (c : Char) : Bool := !(c = '·' || c = '-' || c = '|')

/-- Class `[·\-\|]`. -/
def isSep (c : Char) : Bool := c = '·' || c = '-' || c = '|'

/-- Class `[^\n\.\,]`. -/
def notNPC (c : Char) : Bool := !(c = '\n' || c = '.' || c = ',')

/-- Class `[A-Za-z\s]`. -/
def azSp (c : Char) : Bool :=
  (('A' ≤ c && c ≤ 'Z') || ('a' ≤ c && c ≤ 'z')) || pyIsSpace c

/-- Class `[\d,]`. -/
def digitComma (c : Char) : Bool := c.isDigit || c = ','

/-- Class `[- ]`. -/
def dashSpace (c : Char) : Bool := c = '-' || c = ' '

/-- Class `.` (any character but newline). -/
def dotCls (c : Char) : Bool := c != '\n'

/-- Tail shared by the four title company patterns:
`([^·\-\|]+?)(?:\s*[·\-\|]|\s*$)`. -/
def companyCaptureTail : Re :=
  Re.seq (Re.grp 1 (Re.plusL notSep))
    (Re.alt (Re.seq (Re.starG pyIsSpace) (Re.cls isSep))
      (Re.seq (Re.starG pyIsSpace) Re.endA))

/-- `r'at\s+([^·\-\|]+?)(?:\s*[·\-\|]|\s*$)'` … (IGNORECASE). -/
def titleCompanyPatterns : List Re :=
  [ Re.seq (litCI "at") (Re.seq (Re.plusG pyIsSpace) companyCaptureTail),
    Re.seq (litCI "·") (Re.seq (Re.starG pyIsSpace) companyCaptureTail),
    Re.seq (litCI "-") (Re.seq (Re.starG pyIsSpace) companyCaptureTail),
    Re.seq (litCI "|") (Re.seq (Re.starG pyIsSpace) companyCaptureTail) ]

/-- Label pattern `r'<label>\s*([^\n\.\,]+)'` (IGNORECASE). -/
def labelCap (label : String) : Re :=
  Re.seq (litCI label) (Re.seq (Re.starG pyIsSpace) (Re.grp 1 (Re.plusG notNPC)))

/-- Label pattern with `\s+` separator: `r'<label>\s+([^\n\.\,]+)'`. -/
def labelCapPlus (label : String) : Re :=
  Re.seq (litCI label) (Re.seq (Re.plusG pyIsSpace) (Re.grp 1 (Re.plusG notNPC)))

def snippetCompanyPatterns : List Re :=
  [ labelCap "Company:", labelCap "Organization:", labelCap "Employer:",
    labelCapPlus "Job at", labelCapPlus "Position at" ]

/-- Generic-noise words rejected in title-derived company candidates. -/
def companyNoiseWords : List String := ["job", "career", "hiring", "posted"]

def hasNoiseWord (company : String) : Bool :=
  companyNoiseWords.any (fun w => strIn w (pyLower company))

/-- First title pattern whose (stripped) capture passes the length and
noise-word filters; a failing candidate falls through to the next
pattern, exactly like the `for pattern … if match … if cond: return`
loop in the source. -/
def firstTitleCompany : List Re → String → Option String
  | [], _ => none
  | p :: ps, title =>
    match reSearch p title with
    | some m =>
      let company := pyStrip (groupVal 1 m)
      if company.length > 2 && !hasNoiseWord company then some company
      else firstTitleCompany ps title
    | none => firstTitleCompany ps title

/-- First snippet label pattern whose (stripped) capture is longer than
two characters (no noise-word filter in this loop in the source). -/
def firstSnippetCompany : List Re → String → Option String
  | [], _ => none
  | p :: ps, snippet =>
    match reSearch p snippet with
    | some m =>
      let company := pyStrip (groupVal 1 m)
      if company.length > 2 then some company
      else firstSnippetCompany ps snippet
    | none => firstSnippetCompany ps snippet

/-- `LinkedInJobManualParser.extract_company_name`. -/
def extract_company_name (title snippet : String) : String :=
  match firstTitleCompany titleCompanyPatterns title with
  | some c => c
  | none =>
    match firstSnippetCompany snippetCompanyPatterns snippet with
    | some c => c
    | none => "Unknown Company"

/-- `r'([A-Za-z\s]+,\s*[A-Za-z\s]+(?:,\s*[A-Za-z\s]+)?)'`. -/
def cityStatePattern : Re :=
  Re.grp 1 (Re.seq (Re.plusG azSp)
    (Re.seq (litCI ",") (Re.seq (Re.starG pyIsSpace)
      (Re.seq (Re.plusG azSp)
        (Re.opt (Re.seq (litCI ",")
          (Re.seq (Re.starG pyIsSpace) (Re.plusG azSp))))))))

def locationPatterns : List Re :=
  [ labelCap "Location:", labelCap "Based in:", labelCap "Office location:",
    cityStatePattern,
    Re.seq (litCI "Remote") (Re.seq (Re.starG pyIsSpace)
      (Re.seq (litCI "-") (Re.seq (Re.starG pyIsSpace) (Re.grp 1 (Re.plusG notNPC))))),
    Re.seq (litCI "Hybrid") (Re.seq (Re.starG pyIsSpace)
      (Re.seq (litCI "-") (Re.seq (Re.starG pyIsSpace) (Re.grp 1 (Re.plusG notNPC))))) ]

def locationNoiseWords : List String :=
  ["experience", "years", "apply", "job", "position", "role"]

def locationNoise (location : String) : Bool :=
  locationNoiseWords.any (fun w => strIn w (pyLower location))

/-- Scan one pattern's `findall` captures for the first one passing the
length/noise filter. -/
def firstLocationIn : List String → Option String
  | [] => none
  | m :: ms =>
    let location := pyStrip m
    if location.length > 2 && !locationNoise location then some location
    else firstLocationIn ms

def firstLocation : List Re → String → Option String
  | [], _ => none
  | p :: ps, snippet =>
    match firstLocationIn (reFindAll p snippet) with
    | some l => some l
    | none => firstLocation ps snippet

/-- `r'\b(remote|work from home|wfh)\b'` (IGNORECASE). -/
def remotePattern : Re :=
  Re.seq Re.wordB (Re.seq
    (Re.grp 1 (altList [litCI "remote", litCI "work from home", litCI "wfh"]))
    Re.wordB)

/-- `r'\bhybrid\b'` (IGNORECASE). -/
def hybridPattern : Re :=
  Re.seq Re.wordB (Re.seq (litCI "hybrid") Re.wordB)

/-- `LinkedInJobManualParser.extract_location`. -/
def extract_location (snippet : String) : String :=
  match firstLocation locationPatterns snippet with
  | some l => l
  | none =>
    if (reSearch remotePattern snippet).isSome then "Remote"
    else if (reSearch hybridPattern snippet).isSome then "Hybrid"
    else "Location not specified"

/-- `r'\b(Full[- ]time|Part[- ]time|Contract|Freelance|Internship|Temporary|Permanent)\b'`. -/
def jobTypeTokenPattern : Re :=
  Re.seq Re.wordB (Re.seq
    (Re.grp 1 (altList
      [ Re.seq (litCI "Full") (Re.seq (Re.cls dashSpace) (litCI "time")),
        Re.seq (litCI "Part") (Re.seq (Re.cls dashSpace) (litCI "time")),
        litCI "Contract", litCI "Freelance", litCI "Internship",
        litCI "Temporary", litCI "Permanent" ]))
    Re.wordB)

def jobTypePatterns : List Re :=
  [ jobTypeTokenPattern, labelCap "Employment Type:", labelCap "Job Type:",
    labelCap "Position Type:" ]

/-- Every job-type pattern has exactly one group, so the source's
`group(1).strip()` branch is always the one taken. -/
def firstJobType : List Re → String → Option String
  | [], _ => none
  | p :: ps, snippet =>
    match reSearch p snippet with
    | some m => some (pyStrip (groupVal 1 m))
    | none => firstJobType ps snippet

/-- `LinkedInJobManualParser.extract_job_type`. -/
def extract_job_type (snippet : String) : String :=
  (firstJobType jobTypePatterns snippet).getD "Not specified"

/-- `r'\$[\d,]+(?:\s*-\s*\$[\d,]+)?(?:\s*(?:per\s+)?(?:year|month|hour|annually))?'`. -/
def salaryDollarPattern : Re :=
  Re.seq (litCI "$") (Re.seq (Re.plusG digitComma)
    (Re.seq (Re.opt (Re.seq (Re.starG pyIsSpace)
        (Re.seq (litCI "-") (Re.seq (Re.starG pyIsSpace)
          (Re.seq (litCI "$") (Re.plusG digitComma))))))
      (Re.opt (Re.seq (Re.starG pyIsSpace)
        (Re.seq (Re.opt (Re.seq (litCI "per") (Re.plusG pyIsSpace)))
          (altList [litCI "year", litCI "month", litCI "hour", litCI "annually"]))))))

/-- `r'[\d,]+\s*-\s*[\d,]+\s*(?:USD|VND|EUR|GBP)'`. -/
def salaryRangePattern : Re :=
  Re.seq (Re.plusG digitComma) (Re.seq (Re.starG pyIsSpace)
    (Re.seq (litCI "-") (Re.seq (Re.starG pyIsSpace)
      (Re.seq (Re.plusG digitComma) (Re.seq (Re.starG pyIsSpace)
        (altList [litCI "USD", litCI "VND", litCI "EUR", litCI "GBP"]))))))

/-- `LinkedInJobManualParser.extract_salary`: the first two patterns
return `group(0)` (the source tests `pattern.startswith`), the labeled
ones return `group(1)`. -/
def extract_salary (snippet : String) : String :=
  match reSearch salaryDollarPattern snippet with
  | some m => group0 snippet.data m
  | none =>
    match reSearch salaryRangePattern snippet with
    | some m => group0 snippet.data m
    | none =>
      match reSearch (labelCap "Salary:") snippet with
      | some m => groupVal 1 m
      | none =>
        match reSearch (labelCap "Compensation:") snippet with
        | some m => groupVal 1 m
        | none =>
          match reSearch (labelCap "Pay:") snippet with
          | some m => groupVal 1 m
          | none => "Not specified"

/-- `r'(\d+)\s+(?:days?|hours?|weeks?|months?)\s+ago'`. -/
def relativeDatePattern : Re :=
  Re.seq (Re.grp 1 (Re.plusG Char.isDigit)) (Re.seq (Re.plusG pyIsSpace)
    (Re.seq (altList
      [ Re.seq (litCI "day") (Re.opt (litCI "s")),
        Re.seq (litCI "hour") (Re.opt (litCI "s")),
        Re.seq (litCI "week") (Re.opt (litCI "s")),
        Re.seq (litCI "month") (Re.opt (litCI "s")) ])
      (Re.seq (Re.plusG pyIsSpace) (litCI "ago"))))

/-- `r'(\d{1,2}/\d{1,2}/\d{4})'`. -/
def slashDatePattern : Re :=
  Re.grp 1 (Re.seq (Re.repR Char.isDigit 1 2) (Re.seq (litCI "/")
    (Re.seq (Re.repR Char.isDigit 1 2) (Re.seq (litCI "/")
      (Re.repR Char.isDigit 4 4)))))

/-- `r'(\d{4}-\d{2}-\d{2})'`. -/
def isoDatePattern : Re :=
  Re.grp 1 (Re.seq (Re.repR Char.isDigit 4 4) (Re.seq (litCI "-")
    (Re.seq (Re.repR Char.isDigit 2 2) (Re.seq (litCI "-")
      (Re.repR Char.isDigit 2 2)))))

def datePatterns : List Re :=
  [ labelCap "Posted:", labelCap "Published:", relativeDatePattern,
    slashDatePattern, isoDatePattern ]

/-- Every date pattern has exactly one group, so the source always
returns `match.group(1)` (with no `.strip()`). -/
def firstDate : List Re → String → Option String
  | [], _ => none
  | p :: ps, snippet =>
    match reSearch p snippet with
    | some m => some (groupVal 1 m)
    | none => firstDate ps snippet

/-- `LinkedInJobManualParser.extract_posted_date`. -/
def extract_posted_date (snippet : String) : String :=
  (firstDate datePatterns snippet).getD "Date not specified"

/-- The three `re.sub` patterns of `clean_title` (case-sensitive). -/
def cleanTitlePat1 : Re :=
  Re.seq (Re.starG pyIsSpace) (Re.seq (litS "-") (Re.seq (Re.starG pyIsSpace)
    (Re.seq (litS "LinkedIn") (Re.seq (Re.starG dotCls) Re.endA))))

def cleanTitlePat2 : Re :=
  Re.seq (Re.starG pyIsSpace) (Re.seq (litS "|") (Re.seq (Re.starG pyIsSpace)
    (Re.seq (litS "LinkedIn") (Re.seq (Re.starG dotCls) Re.endA))))

def cleanTitlePat3 : Re :=
  Re.seq (Re.starG pyIsSpace) (Re.seq (litS "–") (Re.seq (Re.starG pyIsSpace)
    (Re.seq (litS "LinkedIn") (Re.seq (Re.starG dotCls) Re.endA))))

/-- `LinkedInJobManualParser.clean_title`. -/
def clean_title (title : String) : String :=
  pyStrip (reSubEmpty cleanTitlePat3 (reSubEmpty cleanTitlePat2
    (reSubEmpty cleanTitlePat1 title)))

/-- `r'/jobs/view/(\d+)'` (case-sensitive). -/
def jobIdPattern : Re :=
  Re.seq (litS "/jobs/view/") (Re.grp 1 (Re.plusG Char.isDigit))

def extract_job_id (url : String) : Option String :=
  (reSearch jobIdPattern url).map (groupVal 1)

/-! ### Deterministic parser and search orchestrator
(`backend/manual_parser.py`, `backend/tools/google_cse_linkedin_search.py`) -/

/-- One raw search-result item `{title, link, snippet}` from the search
provider boundary. -/
structure Item where
  title : String
  link : String
  snippet : String
deriving DecidableEq, Repr

/-- Provider response body: `items` is `none` when the `'items'` key is
absent from the returned JSON. -/
structure SearchData where
  items : Option (List Item)
deriving DecidableEq, Repr

/-- The job dictionary assembled by `_extract_job_info` (and, for the
model-based path, the schema-conformant dictionary the model returns,
which the source stores in the same jobs list). -/
structure Job where
  job_id : Option String
  title : String
  company : String
  location : String
  job_type : String
  salary : String
  posted_date : String
  description : String
  url : String
  source : String
deriving DecidableEq, Repr

/-- `'linkedin.com/jobs' in item.get('link', '')`. -/
def isListingItem (item : Item) : Bool := strIn "linkedin.com/jobs" item.link

/-- `LinkedInJobManualParser.extract_job_info` /
`GoogleCSELinkedInSearcher._extract_job_info`.  The `try/except` wrapper
in the source returns `None` on an exception; none of the body's string
operations can raise on string-typed items, so the embedding always
returns `some`. -/
def extract_job_info (item : Item) : Option Job :=
  let clean := clean_title item.title
  some
    { job_id := extract_job_id item.link
      title := clean
      company := extract_company_name clean item.snippet
      location := extract_location item.snippet
      job_type := extract_job_type item.snippet
      salary := extract_salary item.snippet
      posted_date := extract_posted_date item.snippet
      description := item.snippet
      url := item.link
      source := "linkedin" }

/-- Item loop body of `parse_search_results` /
`_parse_search_results`. -/
def manualItemJobs (item : Item) : List Job :=
  if isListingItem item then
    match extract_job_info item with
    | some job => [job]
    | none => []
  else []

def parseItemsManual : List Item → List Job
  | [] => []
  | item :: rest => manualItemJobs item ++ parseItemsManual rest

/-- `LinkedInJobManualParser.parse_search_results` (identical to
`GoogleCSELinkedInSearcher._parse_search_results`). -/
def parse_search_results (data : SearchData) : List Job :=
  match data.items with
  | none => []
  | some items => parseItemsManual items

/-- The model invocation boundary: `extraction_chain.invoke` either
returns a schema-shaped dictionary or raises (modelled as `Except`). -/
abbrev LlmFn := Item → Except String Job

/-- Item loop body of `_parse_search_results_llm`: on success the source
adds `job_id` (regex over the URL) and `source` to the model's
dictionary; on any exception it falls back to `_extract_job_info` and
keeps the record if that yields one. -/
def llmItemJobs (llm : LlmFn) (item : Item) : List Job :=
  if isListingItem item then
    match llm item with
    | .ok info =>
      [{ info with job_id := extract_job_id item.link, source := "linkedin" }]
    | .error _ =>
      match extract_job_info item with
      | some job => [job]
      | none => []
  else []

def parseItemsLlm (llm : LlmFn) : List Item → List Job
  | [] => []
  | item :: rest => llmItemJobs llm item ++ parseItemsLlm llm rest

/-- `GoogleCSELinkedInSearcher._parse_search_results_llm`. -/
def parse_search_results_llm (llm : LlmFn) (data : SearchData) : List Job :=
  match data.items with
  | none => []
  | some items => parseItemsLlm llm items

/-- The search-provider boundary for the paginated endpoint:
`requests.get` + `raise_for_status` for a `(start, num)` request either
yields a body or raises a `RequestException` (modelled as `Except`). -/
abbrev ProviderFn := Nat → Int → Except String SearchData

/-- The start offsets the `while` guard `start_index <= 91` admits:
`start_index` begins at 1 and grows by 10 per iteration. -/
def searchStarts : List Nat := [1, 11, 21, 31, 41, 51, 61, 71, 81, 91]

/-- The `while` loop of `search_linkedin_jobs`, expressed by structural
recursion over the remaining start offsets (an exhausted offset list is
exactly the guard `start_index <= 91` failing): accumulate batches while
fewer than `num_results` jobs are collected; a batch parsing to zero
jobs stops pagination; a provider error propagates to the enclosing
`except` clause. -/
def searchJobsGo (provider : ProviderFn) (llm : LlmFn)
    (parsingMethod : String) (numResults : Int) :
    List Nat → List Job → Except String (List Job)
  | [], allJobs => .ok allJobs
  | startIndex :: rest, allJobs =>
    if (allJobs.length : Int) < numResults then
      let batchSize : Int := min 10 (numResults - allJobs.length)
      match provider startIndex batchSize with
      | .error e => .error e
      | .ok searchData =>
        let batchJobs :=
          if parsingMethod == "llm" then parse_search_results_llm llm searchData
          else parse_search_results searchData
        if batchJobs.isEmpty then .ok allJobs
        else searchJobsGo provider llm parsingMethod numResults rest
          (allJobs ++ batchJobs)
    else .ok allJobs

def searchJobsLoop (provider : ProviderFn) (llm : LlmFn)
    (parsingMethod : String) (numResults : Int) : Except String (List Job) :=
  searchJobsGo provider llm parsingMethod numResults searchStarts []

/-- The parsing-method normalization at the top of both search entry
points: model-based extraction downgrades to `"manual"` when the model
provider is unavailable. -/
def effectiveMethod (parsingMethod : String) (llmAvailable : Bool) : String :=
  if parsingMethod == "llm" && !llmAvailable then "manual" else parsingMethod

/-- The result dictionary: keys absent from a given return path are
`none`. -/
structure SearchResult where
  success : Bool
  query : Option String := none
  total_found : Option Nat := none
  jobs : List Job := []
  parsing_method : Option String := none
  source : Option String := none
  error : Option String := none
deriving DecidableEq, Repr

/-- Query-building of `search_linkedin_jobs`: keyword plus each truthy
(non-empty) optional part, prefixed with the site restriction. -/
def buildBasicQuery (keyword location jobType experienceLevel : String) : String :=
  let parts := [keyword]
    ++ (if location ≠ "" then [location] else [])
    ++ (if jobType ≠ "" then [jobType] else [])
    ++ (if experienceLevel ≠ "" then [experienceLevel] else [])
  "site:linkedin.com/jobs " ++ String.intercalate " " parts

/-- `GoogleCSELinkedInSearcher.search_linkedin_jobs`.  `llmAvailable`
is the instance flag set in `__init__`; the only statement inside the
`try` block that can raise is the provider call, whose
`RequestException` the source converts to the structured failure
result. -/
def search_linkedin_jobs (provider : ProviderFn) (llm : LlmFn)
    (llmAvailable : Bool) (keyword : String) (location : String := "")
    (jobType : String := "") (experienceLevel : String := "")
    (numResults : Int := 10) (parsingMethod : String := "manual") :
    SearchResult :=
  let pm := effectiveMethod parsingMethod llmAvailable
  let query := buildBasicQuery keyword location jobType experienceLevel
  match searchJobsLoop provider llm pm numResults with
  | .ok allJobs =>
    let finalJobs := pySlice allJobs numResults
    { success := true
      query := some query
      total_found := some finalJobs.length
      jobs := finalJobs
      parsing_method := some pm
      source := some "google_cse_api" }
  | .error e =>
    { success := false
      error := some ("API request failed: " ++ e)
      jobs := [] }

/-- Result dictionary of `search_with_filters` (carries a nested
`filters` echo instead of pagination metadata). -/
structure FiltersEcho where
  company : String
  location : String
  job_level : String
  date_range : String
deriving DecidableEq, Repr

structure FilterSearchResult where
  success : Bool
  query : Option String := none
  filters : Option FiltersEcho := none
  total_found : Option Nat := none
  jobs : List Job := []
  parsing_method : Option String := none
  source : Option String := none
  error : Option String := none
deriving DecidableEq, Repr

/-- The single-request provider boundary used by `search_with_filters`
(no `start` parameter; the request carries `num` and `dateRestrict`). -/
abbrev ProviderFFn := Int → String → Except String SearchData

/-- `GoogleCSELinkedInSearcher.search_with_filters`. -/
def search_with_filters (providerF : ProviderFFn) (llm : LlmFn)
    (llmAvailable : Bool) (keyword : String) (company : String := "")
    (location : String := "") (jobLevel : String := "")
    (dateRange : String := "m1") (numResults : Int := 10)
    (parsingMethod : String := "manual") : FilterSearchResult :=
  let pm := effectiveMethod parsingMethod llmAvailable
  let parts := [keyword]
    ++ (if company ≠ "" then ["\"" ++ company ++ "\""] else [])
    ++ (if location ≠ "" then ["\"" ++ location ++ "\""] else [])
    ++ (if jobLevel ≠ "" then ["\"" ++ jobLevel ++ "\""] else [])
  let query := "site:linkedin.com/jobs " ++ String.intercalate " " parts
  match providerF (min numResults 10) dateRange with
  | .ok searchData =>
    let jobs :=
      if pm == "llm" then parse_search_results_llm llm searchData
      else parse_search_results searchData
    { success := true
      query := some query
      filters := some ⟨company, location, jobLevel, dateRange⟩
      total_found := some jobs.length
      jobs := jobs
      parsing_method := some pm
      source := some "google_cse_api" }
  | .error e => { success := false, error := some e, jobs := [] }

/-! ### The `search_linkedin_jobs` tool
(`backend/tools/job_search_agent.py`) -/

/-- The `applied_filters` metadata dictionary attached to successful
results. -/
structure AppliedFilters where
  keyword : String
  location : String
  job_type : String
  experience_level : String
  company : String
  industry : String
  date_range : String
  work_arrangement : String
  job_function : String
  salary_filter : String
  exact_company_match : Bool
  include_similar_jobs : Bool
deriving DecidableEq, Repr

/-- The tool's result: either searcher dictionary shape, extended with
`applied_filters` / `salary_filter_note` on success. -/
structure AgentResult where
  success : Bool
  query : Option String := none
  filters : Option FiltersEcho := none
  total_found : Option Nat := none
  jobs : List Job := []
  parsing_method : Option String := none
  source : Option String := none
  error : Option String := none
  applied_filters : Option AppliedFilters := none
  salary_filter_note : Option String := none
deriving DecidableEq, Repr

def ofSearchResult (r : SearchResult) : AgentResult :=
  { success := r.success, query := r.query, total_found := r.total_found
    jobs := r.jobs, parsing_method := r.parsing_method, source := r.source
    error := r.error }

def ofFilterSearchResult (r : FilterSearchResult) : AgentResult :=
  { success := r.success, query := r.query, filters := r.filters
    total_found := r.total_found, jobs := r.jobs
    parsing_method := r.parsing_method, source := r.source, error := r.error }

/-- The `applied_filters` dictionary literal the tool attaches to a
successful result (source lines 112–125). -/
def buildAppliedFilters (keyword location jobType experienceLevel company
    industry dateRange workArrangement jobFunction salaryRange : String)
    (exactMatchCompany includeSimilar : Bool) : AppliedFilters :=
  { keyword := keyword
    location := if pyStrip location ≠ "" then location else "all locations"
    job_type := if pyStrip jobType ≠ "" then jobType else "all types"
    experience_level := if pyStrip experienceLevel ≠ "" then experienceLevel
                        else "all levels"
    company := if pyStrip company ≠ "" then company else "all companies"
    industry := if pyStrip industry ≠ "" then industry else "all industries"
    date_range := dateRange
    work_arrangement := if pyStrip workArrangement ≠ "" then workArrangement
                        else "all arrangements"
    job_function := if pyStrip jobFunction ≠ "" then jobFunction
                    else "all functions"
    salary_filter := if pyStrip salaryRange ≠ "" then "applied"
                     else "not applied"
    exact_company_match := exactMatchCompany
    include_similar_jobs := includeSimilar }

/-- The tool's post-processing (source lines 110–131): on a successful
searcher result attach `applied_filters` and, when a salary filter was
requested and jobs were found, the `salary_filter_note`; a failure
result passes through untouched. -/
def attachMetadata (result : AgentResult) (af : AppliedFilters)
    (salaryRange : String) : AgentResult :=
  if result.success then
    let withFilters := { result with applied_filters := some af }
    if pyStrip salaryRange ≠ "" && !withFilters.jobs.isEmpty then
      let note := "Searched with salary consideration: " ++ salaryRange
      { withFilters with salary_filter_note := some note }
    else withFilters
  else result

/-- The tool `search_linkedin_jobs` in `backend/tools/job_search_agent.py`.
`apiKey`/`searchEngineId` model the two environment variables;
`provider`/`providerF`/`llm`/`llmAvailable` model the searcher instance's
external boundaries. -/
def agent_search_linkedin_jobs (apiKey searchEngineId : Option String)
    (provider : ProviderFn) (providerF : ProviderFFn) (llm : LlmFn)
    (llmAvailable : Bool) (keyword : String) (location : String := "")
    (jobType : String := "") (experienceLevel : String := "")
    (company : String := "") (industry : String := "")
    (dateRange : String := "m1") (numResults : Int := 10)
    (parsingMethod : String := "llm") (salaryRange : String := "")
    (workArrangement : String := "") (jobFunction : String := "")
    (includeSimilar : Bool := true) (exactMatchCompany : Bool := false) :
    AgentResult :=
  if apiKey.getD "" == "" || searchEngineId.getD "" == "" then
    { success := false
      error := some ("Missing Google API credentials. Please set " ++
        "GOOGLE_API_KEY and GOOGLE_CSE_ID environment variables.")
      jobs := [] }
  else
    let queryParts := [keyword]
      ++ (if pyStrip location ≠ "" then [pyStrip location] else [])
      ++ (if pyStrip jobType ≠ "" then [pyStrip jobType] else [])
      ++ (if pyStrip experienceLevel ≠ "" then [pyStrip experienceLevel] else [])
      ++ (if pyStrip workArrangement ≠ "" then [pyStrip workArrangement] else [])
      ++ (if pyStrip jobFunction ≠ "" then [pyStrip jobFunction] else [])
      ++ (if pyStrip industry ≠ "" then [pyStrip industry] else [])
      ++ (if pyStrip salaryRange ≠ "" then ["salary"] else [])
    let joined := String.intercalate " " queryParts
    let result :=
      if pyStrip company ≠ "" then
        ofFilterSearchResult (search_with_filters providerF llm llmAvailable
          joined (if exactMatchCompany then company else "") location
          experienceLevel dateRange numResults parsingMethod)
      else
        ofSearchResult (search_linkedin_jobs provider llm llmAvailable
          joined location jobType experienceLevel numResults parsingMethod)
    attachMetadata result
      (buildAppliedFilters keyword location jobType experienceLevel
        company industry dateRange workArrangement jobFunction salaryRange
        exactMatchCompany includeSimilar)
      salaryRange

/-! ### Pydantic validators (`backend/schema.py`) -/

/-- Raw values reaching a pydantic `mode="before"` validator. -/
inductive PyVal where
  | null : PyVal
  | str : String → PyVal
  | list : List PyVal → PyVal
  | int : Int → PyVal
deriving Repr

/-- The `array_fields` set in `JobSchema.handle_none_values`. -/
def arrayFields : List String :=
  [ "benefits", "responsibilities", "required_skills", "preferred_skills",
    "soft_skills", "education_requirements", "experience_requirements",
    "certifications_required", "languages_required", "technologies",
    "programming_languages" ]

/-- `JobSchema.handle_none_values` (field_validator `'*'`,
`mode="before"`). -/
def handle_none_values (fieldName : String) (v : PyVal) : PyVal :=
  if arrayFields.contains fieldName then
    match v with
    | .str s =>
      if s = "None" || s = "" then .list []
      else if pyStrip s = "" then .list [] else .str s
    | .null => .list []
    | other => other
  else
    match v with
    | .str s => if s = "" then .str "None" else .str s
    | .null => .str "None"
    | other => other

/-- Field names of `JobSchema` with a flag marking list-typed fields
(`List[str]` annotations). -/
def jobSchemaFields : List (String × Bool) :=
  [ ("job_id", false), ("title", false), ("seniority_level", false),
    ("company_info", false), ("location", false),
    ("work_arrangement", false), ("job_type", false), ("department", false),
    ("salary_min", false), ("salary_max", false), ("salary_currency", false),
    ("salary_period", false), ("equity", false), ("benefits", true),
    ("description", false), ("responsibilities", true),
    ("required_skills", true), ("preferred_skills", true),
    ("soft_skills", true), ("education_requirements", true),
    ("experience_requirements", true), ("certifications_required", true),
    ("languages_required", true), ("technologies", true),
    ("programming_languages", true), ("posted_date", false),
    ("application_deadline", false), ("application_url", false),
    ("recruiter_contact", false), ("travel_requirements", false),
    ("security_clearance", false), ("visa_sponsorship", false),
    ("url", false), ("source", false), ("job_function", false) ]

/-- The `ge=1, le=50` constraint on `num_results` in
`LinkedInJobSearchInput` (and `JobSearchFromCVInput`): pydantic accepts
the value iff it lies in the range, otherwise construction raises a
validation error (no clamping). -/
def numResultsAccepted (n : Int) : Bool := 1 ≤ n && n ≤ 50

/-! ### Concrete fixtures used by witnesses -/

def sampleItem : Item :=
  { title := "", link := "https://www.linkedin.com/jobs/view/123", snippet := "" }

def sampleJob : Job :=
  { job_id := some "123", title := "", company := "Unknown Company"
    location := "Location not specified", job_type := "Not specified"
    salary := "Not specified", posted_date := "Date not specified"
    description := "", url := "https://www.linkedin.com/jobs/view/123"
    source := "linkedin" }

def nonListingItem : Item :=
  { title := "A profile", link := "https://example.com/pulse/x", snippet := "hello" }

def providerOk1 : ProviderFn := fun _ _ => .ok ⟨some [sampleItem]⟩

def providerTen : ProviderFn :=
  fun _ _ => .ok ⟨some (List.replicate 10 sampleItem)⟩

def providerFailSecond : ProviderFn :=
  fun start _ =>
    if start == 1 then .ok ⟨some [sampleItem]⟩ else .error "connection reset"

def providerNonListing : ProviderFn := fun _ _ => .ok ⟨some [nonListingItem]⟩

def llmErr : LlmFn := fun _ => .error "rate limited"

/-! ### Helper lemmas -/

theorem parseItemsManual_append (a b : List Item) :
    parseItemsManual (a ++ b) = parseItemsManual a ++ parseItemsManual b := by
  induction a with
  | nil => simp [parseItemsManual]
  | cons x xs ih => simp [parseItemsManual, ih]

theorem parseItemsLlm_append (llm : LlmFn) (a b : List Item) :
    parseItemsLlm llm (a ++ b) = parseItemsLlm llm a ++ parseItemsLlm llm b := by
  induction a with
  | nil => simp [parseItemsLlm]
  | cons x xs ih => simp [parseItemsLlm, ih]

theorem pySlice_nil {α : Type} (n : Int) : pySlice ([] : List α) n = [] := by
  simp [pySlice]

/-- The pagination loop returns the accumulated jobs unchanged when the
next batch parses to zero jobs. -/
theorem searchJobsGo_stop (provider : ProviderFn) (llm : LlmFn)
    (pm : String) (n : Int) (jobs : List Job) (start : Nat)
    (rest : List Nat) (data : SearchData)
    (hlt : (jobs.length : Int) < n)
    (hprov : provider start (min 10 (n - jobs.length)) = .ok data)
    (hempty : (if pm == "llm" then parse_search_results_llm llm data
               else parse_search_results data) = []) :
    searchJobsGo provider llm pm n (start :: rest) jobs = .ok jobs := by
  unfold searchJobsGo
  rw [if_pos hlt]
  dsimp only
  rw [hprov]
  simp only [hempty, List.isEmpty_nil, if_true]

/-- When `num_results` is not positive the loop never calls the
provider. -/
theorem searchJobsGo_nonpos (provider : ProviderFn) (llm : LlmFn)
    (pm : String) (n : Int) (starts : List Nat) (hn : n ≤ 0) :
    searchJobsGo provider llm pm n starts [] = .ok [] := by
  cases starts with
  | nil => rfl
  | cons s rest =>
    unfold searchJobsGo
    rw [if_neg (by simp; omega)]

/-! ### C1 -/

/-- C1: the scalar/collection absence asymmetry of
`JobSchema.handle_none_values`: a scalar (non-list) `JobSchema` field
supplied as empty string or null is normalized to the string sentinel
`"None"`; a list-typed field supplied as null, empty string, or the
string `"None"` is normalized to the empty list. -/
theorem jobSchema_absence_asymmetry (name : String) (isList : Bool)
    (v : PyVal) (hmem : (name, isList) ∈ jobSchemaFields) :
    (isList = false → (v = .str "" ∨ v = .null) →
      handle_none_values name v = .str "None") ∧
    (isList = true → (v = .null ∨ v = .str "" ∨ v = .str "None") →
      handle_none_values name v = .list []) := by
  have harr : arrayFields.contains name = isList := by
    have hall : ∀ p ∈ jobSchemaFields, arrayFields.contains p.1 = p.2 := by
      decide
    exact hall (name, isList) hmem
  constructor
  · rintro rfl (rfl | rfl) <;> (simp only [handle_none_values, harr]; rfl)
  · rintro rfl (rfl | rfl | rfl) <;> (simp only [handle_none_values, harr]; rfl)

/-- Witness for C1: evaluated at the `title` and `benefits` fields. -/
theorem jobSchema_absence_asymmetry_witness :
    handle_none_values "title" (.str "") = .str "None" ∧
    handle_none_values "benefits" (.str "None") = .list [] :=
  ⟨(jobSchema_absence_asymmetry "title" false (.str "") (by decide)).1
      rfl (Or.inl rfl),
   (jobSchema_absence_asymmetry "benefits" true (.str "None") (by decide)).2
      rfl (Or.inr (Or.inr rfl))⟩

/-! ### C2 -/

/-- C2: in model-based batch parsing, an item on which the model
invocation raises is retried through the deterministic extractor; if
that yields a record the record is kept, and the remaining items of the
batch are still processed (the batch result decomposes around the
failing item). -/
theorem llm_item_failure_falls_back (llm : LlmFn) (xs ys : List Item)
    (item : Item) (e : String) (j : Job)
    (hlist : isListingItem item = true)
    (hfail : llm item = .error e)
    (hdet : extract_job_info item = some j) :
    parse_search_results_llm llm ⟨some (xs ++ item :: ys)⟩ =
      parseItemsLlm llm xs ++ j :: parseItemsLlm llm ys ∧
    j ∈ parse_search_results_llm llm ⟨some (xs ++ item :: ys)⟩ := by
  have hitem : llmItemJobs llm item = [j] := by
    simp [llmItemJobs, hlist, hfail, hdet]
  have heq : parse_search_results_llm llm ⟨some (xs ++ item :: ys)⟩ =
      parseItemsLlm llm xs ++ j :: parseItemsLlm llm ys := by
    show parseItemsLlm llm (xs ++ item :: ys) = _
    rw [parseItemsLlm_append]
    simp [parseItemsLlm, hitem]
  exact ⟨heq, by rw [heq]; exact List.mem_append_right _ (List.mem_cons_self _ _)⟩

/-- Witness for C2: a model that always raises, a listing item, and the
deterministic record for it. -/
theorem llm_item_failure_falls_back_witness :
    parse_search_results_llm llmErr ⟨some ([nonListingItem] ++ sampleItem :: [])⟩ =
      parseItemsLlm llmErr [nonListingItem] ++ sampleJob :: parseItemsLlm llmErr [] ∧
    sampleJob ∈ parse_search_results_llm llmErr
      ⟨some ([nonListingItem] ++ sampleItem :: [])⟩ :=
  llm_item_failure_falls_back llmErr [nonListingItem] [] sampleItem
    "rate limited" sampleJob (by decide) rfl (by decide)

/-! ### C3 -/

/-- C3: a provider-level HTTP/network failure anywhere during the
pagination loop — including after jobs were already accumulated — makes
`search_linkedin_jobs` return the structured failure result: `success =
false`, empty jobs list, error message; no partial list, no exception. -/
theorem provider_failure_aborts_whole_search (provider : ProviderFn)
    (llm : LlmFn) (avail : Bool) (kw loc jt el : String) (n : Int)
    (pm e : String)
    (h : searchJobsLoop provider llm (effectiveMethod pm avail) n =
      .error e) :
    search_linkedin_jobs provider llm avail kw loc jt el n pm =
      { success := false, error := some ("API request failed: " ++ e),
        jobs := [] } := by
  unfold search_linkedin_jobs
  dsimp only
  rw [h]

/-- Witness for C3: the provider returns a full first page, then fails
on the second page; the accumulated first-page job is discarded and the
structured failure is returned. -/
theorem provider_failure_aborts_whole_search_witness :
    search_linkedin_jobs providerFailSecond llmErr true "python" "" "" ""
        5 "manual" =
      { success := false,
        error := some ("API request failed: " ++ "connection reset"),
        jobs := [] } :=
  provider_failure_aborts_whole_search providerFailSecond llmErr true
    "python" "" "" "" 5 "manual" "connection reset" rfl

/-! ### C4 -/

/-- Counterexample to C4: `search_linkedin_jobs` performs no clamping of
`num_results` to `[1,50]`: with a provider that fills every batch, a
request for 60 results returns 60 job records. -/
theorem no_clamp_counterexample :
    (search_linkedin_jobs providerTen llmErr true "k" "" "" "" 60
        "manual").jobs.length = 60 ∧ ¬ (60 ≤ 50) := by
  constructor
  · decide
  · decide

/-- C4 (amended): `search_linkedin_jobs` does not clamp `num_results`;
it returns at most `max(num_results, 0)` records by truncating the
accumulated list, and requests below 1 simply skip pagination and yield
an empty list.  The `[1,50]` range appears only as the input schema's
`ge`/`le` constraint, which rejects out-of-range values instead of
treating them as the nearest bound. -/
theorem search_truncates_to_num_results (provider : ProviderFn)
    (llm : LlmFn) (avail : Bool) (kw loc jt el pm : String) (n : Int) :
    (search_linkedin_jobs provider llm avail kw loc jt el n pm).jobs.length
      ≤ n.toNat ∧
    (¬ (1 ≤ n ∧ n ≤ 50) → numResultsAccepted n = false) := by
  constructor
  · by_cases hn : (0 : Int) < n
    · unfold search_linkedin_jobs
      dsimp only
      cases hloop : searchJobsLoop provider llm (effectiveMethod pm avail) n with
      | error e => simp only [List.length_nil]; exact Nat.zero_le _
      | ok all =>
        have hlen : (pySlice all n).length ≤ n.toNat := by
          rw [pySlice, if_neg (by omega)]
          simp only [List.length_take]
          exact Nat.min_le_left n.toNat all.length
        exact hlen
    · have hloop : searchJobsLoop provider llm (effectiveMethod pm avail) n =
          .ok [] :=
        searchJobsGo_nonpos provider llm (effectiveMethod pm avail) n
          searchStarts (by omega)
      unfold search_linkedin_jobs
      dsimp only
      rw [hloop]
      simp [pySlice_nil]
  · intro hrange
    have hiff : numResultsAccepted n = true ↔ (1 ≤ n ∧ n ≤ 50) := by
      simp [numResultsAccepted]
    cases hb : numResultsAccepted n
    · rfl
    · exact absurd (hiff.mp hb) hrange

/-- Witness for C4 (amended): evaluated at the out-of-range request 60. -/
theorem search_truncates_to_num_results_witness :
    (search_linkedin_jobs providerTen llmErr true "k" "" "" "" 60
        "manual").jobs.length ≤ (60 : Int).toNat ∧
    numResultsAccepted 60 = false :=
  ⟨(search_truncates_to_num_results providerTen llmErr true "k" "" "" ""
      "manual" 60).1,
   (search_truncates_to_num_results providerTen llmErr true "k" "" "" ""
      "manual" 60).2 (by omega)⟩

/-! ### C5 -/

/-- C5: when `"llm"` parsing is requested but the model provider is
unavailable, `search_linkedin_jobs` behaves exactly as a `"manual"`
request (silent downgrade), and every successful result reports
`parsing_method = "manual"` — the method actually used, not the
requested one. -/
theorem llm_unavailable_silent_downgrade (provider : ProviderFn)
    (llm : LlmFn) (kw loc jt el : String) (n : Int) :
    search_linkedin_jobs provider llm false kw loc jt el n "llm" =
      search_linkedin_jobs provider llm false kw loc jt el n "manual" ∧
    ((search_linkedin_jobs provider llm false kw loc jt el n "llm").success =
        true →
      (search_linkedin_jobs provider llm false kw loc jt el n
        "llm").parsing_method = some "manual") := by
  have hpm : effectiveMethod "llm" false = "manual" := rfl
  constructor
  · rfl
  · intro hs
    unfold search_linkedin_jobs at hs ⊢
    dsimp only at hs ⊢
    rw [hpm] at hs ⊢
    cases hloop : searchJobsLoop provider llm "manual" n with
    | ok all => rfl
    | error e => rw [hloop] at hs; simp at hs

/-- Witness for C5: evaluated with a provider that yields one listing
item per page and a model stub that is never consulted. -/
theorem llm_unavailable_silent_downgrade_witness :
    (search_linkedin_jobs providerOk1 llmErr false "python" "" "" "" 2
        "llm").parsing_method = some "manual" :=
  (llm_unavailable_silent_downgrade providerOk1 llmErr "python" "" "" ""
    2).2 rfl

/-! ### C6 -/

/-- C6: the deterministic parser contributes nothing for an item whose
link does not contain `'linkedin.com/jobs'`: the item's own record list
is empty and removing the item leaves the batch result unchanged (it is
skipped, without error). -/
theorem non_listing_item_skipped (xs ys : List Item) (item : Item)
    (h : isListingItem item = false) :
    manualItemJobs item = [] ∧
    parse_search_results ⟨some (xs ++ item :: ys)⟩ =
      parse_search_results ⟨some (xs ++ ys)⟩ := by
  have hitem : manualItemJobs item = [] := by
    simp [manualItemJobs, h]
  refine ⟨hitem, ?_⟩
  show parseItemsManual (xs ++ item :: ys) = parseItemsManual (xs ++ ys)
  rw [parseItemsManual_append, parseItemsManual_append]
  simp [parseItemsManual, hitem]

/-- Witness for C6: a non-listing item surrounded by listing items. -/
theorem non_listing_item_skipped_witness :
    manualItemJobs nonListingItem = [] ∧
    parse_search_results ⟨some ([sampleItem] ++ nonListingItem :: [sampleItem])⟩ =
      parse_search_results ⟨some ([sampleItem] ++ [sampleItem])⟩ :=
  non_listing_item_skipped [sampleItem] [sampleItem] nonListingItem rfl

/-! ### C10 -/

/-- C10 (implicit): a pagination batch that parses to zero jobs — e.g.
because every returned item was filtered out as non-listing — stops
`search_linkedin_jobs` immediately: the loop returns the jobs
accumulated so far, and at top level the call succeeds with the
(possibly short) accumulated list even though further provider pages
exist. -/
theorem empty_batch_stops_pagination (provider : ProviderFn) (llm : LlmFn)
    (pm : String) (n : Int) (jobs : List Job) (start : Nat)
    (rest : List Nat) (data : SearchData) (avail : Bool)
    (kw loc jt el : String)
    (hlt : (jobs.length : Int) < n)
    (hprov : provider start (min 10 (n - jobs.length)) = .ok data)
    (hempty : (if pm == "llm" then parse_search_results_llm llm data
               else parse_search_results data) = [])
    (hn : 0 < n)
    (hfirst : provider 1 (min 10 n) = .ok data)
    (hpm : effectiveMethod pm avail = pm) :
    searchJobsGo provider llm pm n (start :: rest) jobs = .ok jobs ∧
    search_linkedin_jobs provider llm avail kw loc jt el n pm =
      { success := true, query := some (buildBasicQuery kw loc jt el),
        total_found := some 0, jobs := [], parsing_method := some pm,
        source := some "google_cse_api" } := by
  refine ⟨searchJobsGo_stop provider llm pm n jobs start rest data hlt hprov
    hempty, ?_⟩
  have hfirst' : provider 1 (min 10 (n - ([] : List Job).length)) = .ok data := by
    simpa using hfirst
  have hloop : searchJobsLoop provider llm pm n = .ok [] := by
    unfold searchJobsLoop searchStarts
    exact searchJobsGo_stop provider llm pm n [] 1 _ data (by simpa using hn)
      hfirst' hempty
  unfold search_linkedin_jobs
  dsimp only
  rw [hpm, hloop]
  simp [pySlice_nil]

/-- Witness for C10: the provider has pages of items, but none of them
is a listing item, so the very first batch parses to zero jobs and the
search succeeds with an empty result despite `num_results = 5`. -/
theorem empty_batch_stops_pagination_witness :
    searchJobsGo providerNonListing llmErr "manual" 5 (11 :: [21]) [] =
      .ok [] ∧
    search_linkedin_jobs providerNonListing llmErr true "python" "" "" "" 5
        "manual" =
      { success := true,
        query := some (buildBasicQuery "python" "" "" ""),
        total_found := some 0, jobs := [], parsing_method := some "manual",
        source := some "google_cse_api" } :=
  empty_batch_stops_pagination providerNonListing llmErr "manual" 5 [] 11
    [21] ⟨some [nonListingItem]⟩ true "python" "" "" "" (by decide) rfl
    (by decide) (by decide) rfl rfl

/-! ### C8 -/

/-- `w` is a case-insensitive prefix of `cs` (how an IGNORECASE literal
anchors). -/
def ciPrefix : List Char → List Char → Bool
  | [], _ => true
  | _ :: _, [] => false
  | w :: ws, c :: cs => ciEq w c && ciPrefix ws cs

/-- Anchored matching of an IGNORECASE literal: it succeeds exactly when
the literal is a case-insensitive prefix of the rest of the subject, and
then resumes `w.length` characters later. -/
theorem matchRe_litChars {α : Type} (ws : List Char) (orig : List Char)
    (pos : Nat) (gs : Groups) (k : Nat → Groups → Option α) :
    matchRe (ws.foldr (fun c racc => Re.seq (Re.cls (ciEq c)) racc) Re.eps)
      orig pos gs k =
      if ciPrefix ws (orig.drop pos) then k (pos + ws.length) gs else none := by
  induction ws generalizing pos with
  | nil => simp [matchRe, ciPrefix]
  | cons w ws ih =>
    simp only [List.foldr_cons]
    show matchRe (Re.seq (Re.cls (ciEq w)) _) orig pos gs k = _
    simp only [matchRe]
    cases hg : orig.get? pos with
    | none =>
      have hle : orig.length ≤ pos := List.get?_eq_none.mp hg
      rw [List.drop_eq_nil_of_le hle]
      simp [ciPrefix]
    | some c =>
      obtain ⟨hlt, hgetc⟩ := List.get?_eq_some.mp hg
      have hgc : orig[pos] = c := hgetc
      have hdrop : orig.drop pos = c :: orig.drop (pos + 1) := by
        rw [List.drop_eq_getElem_cons hlt, hgc]
      rw [hdrop]
      simp only [ciPrefix]
      by_cases hc : ciEq w c = true
      · rw [if_pos hc, ih]
        have harith : pos + 1 + ws.length = pos + (ws.length + 1) := by omega
        rw [harith]
        simp only [hc, Bool.true_and, List.length_cons]
      · rw [if_neg hc]
        rw [Bool.not_eq_true] at hc
        simp [hc]

theorem matchRe_litCI {α : Type} (w : String) (orig : List Char)
    (pos : Nat) (gs : Groups) (k : Nat → Groups → Option α) :
    matchRe (litCI w) orig pos gs k =
      if ciPrefix w.data (orig.drop pos) then k (pos + w.data.length) gs
      else none :=
  matchRe_litChars w.data orig pos gs k

theorem tryPos_cons_some {α : Type} (k : Nat → Option α) (n : Nat)
    (ns : List Nat) (r : α) (h : k n = some r) :
    tryPos k (n :: ns) = some r := by
  simp [tryPos, h]

/-- The greedy quantifier candidate list tries the maximal count first. -/
theorem range_rev_map (m : Nat) (g : Nat → Nat) :
    ((List.range (m + 1)).reverse).map g =
      g m :: ((List.range m).reverse).map g := by
  rw [List.range_succ, List.reverse_append]
  simp

theorem range'_rev_map (m : Nat) (g : Nat → Nat) :
    ((List.range' 1 (m + 1)).reverse).map g =
      g (m + 1) :: ((List.range' 1 m).reverse).map g := by
  rw [List.range'_concat, List.reverse_append]
  simp [Nat.add_comm]

theorem drop_takeWhile_length (p : Char → Bool) (l : List Char) :
    l.drop (l.takeWhile p).length = l.dropWhile p := by
  calc l.drop (l.takeWhile p).length
      = (l.takeWhile p ++ l.dropWhile p).drop (l.takeWhile p).length := by
        rw [List.takeWhile_append_dropWhile]
    _ = l.dropWhile p := List.drop_left _ _

/-- Anchored matching of the tail `\s*([^\n\.\,]+)` of a label pattern:
greedy whitespace, then the capture takes the whole remainder when every
remaining character is admissible and a non-whitespace remainder exists. -/
theorem matchRe_postedTail (orig : List Char) (pos pos0 : Nat)
    (hpos : pos ≤ orig.length)
    (hall : ∀ c ∈ orig.drop pos, notNPC c = true)
    (hne : (orig.drop pos).dropWhile pyIsSpace ≠ []) :
    matchRe (Re.seq (Re.starG pyIsSpace) (Re.grp 1 (Re.plusG notNPC))) orig
      pos [] (fun e gs => some ((pos0, e, gs) : MRes)) =
      some (pos0, orig.length, [(1, (orig.drop pos).dropWhile pyIsSpace)]) := by
  have hw : runLen pyIsSpace orig pos =
      ((orig.drop pos).takeWhile pyIsSpace).length := rfl
  have hld : orig.drop (pos + ((orig.drop pos).takeWhile pyIsSpace).length) =
      (orig.drop pos).dropWhile pyIsSpace := by
    rw [← List.drop_drop, drop_takeWhile_length]
  have halld : ∀ c ∈ (orig.drop pos).dropWhile pyIsSpace, notNPC c = true :=
    fun c hc => hall c (List.dropWhile_suffix pyIsSpace |>.subset hc)
  have hrun2 : runLen notNPC orig
      (pos + ((orig.drop pos).takeWhile pyIsSpace).length) =
      ((orig.drop pos).dropWhile pyIsSpace).length := by
    rw [runLen, hld, List.takeWhile_eq_self_iff.mpr halld]
  have hlen : pos + ((orig.drop pos).takeWhile pyIsSpace).length +
      ((orig.drop pos).dropWhile pyIsSpace).length = orig.length := by
    have h1 : ((orig.drop pos).takeWhile pyIsSpace).length +
        ((orig.drop pos).dropWhile pyIsSpace).length =
        (orig.drop pos).length := by
      rw [← List.length_append, List.takeWhile_append_dropWhile]
    rw [Nat.add_assoc, h1, List.length_drop]
    omega
  obtain ⟨c0, d0, hd⟩ : ∃ c0 d0,
      (orig.drop pos).dropWhile pyIsSpace = c0 :: d0 := by
    cases hcase : (orig.drop pos).dropWhile pyIsSpace with
    | nil => exact absurd hcase hne
    | cons c0 d0 => exact ⟨c0, d0, rfl⟩
  have hstep1 : matchRe (Re.seq (Re.starG pyIsSpace)
      (Re.grp 1 (Re.plusG notNPC))) orig pos []
      (fun e gs => some ((pos0, e, gs) : MRes)) =
      tryPos (fun p => matchRe (Re.grp 1 (Re.plusG notNPC)) orig p []
        (fun e gs => some ((pos0, e, gs) : MRes)))
        (((List.range (runLen pyIsSpace orig pos + 1)).reverse).map
          (fun x => pos + x)) := rfl
  rw [hstep1, hw, range_rev_map]
  apply tryPos_cons_some
  have hstep2 : matchRe (Re.grp 1 (Re.plusG notNPC)) orig
      (pos + ((orig.drop pos).takeWhile pyIsSpace).length) []
      (fun e gs => some ((pos0, e, gs) : MRes)) =
      tryPos (fun p => some ((pos0, p,
        [(1, (orig.drop (pos + ((orig.drop pos).takeWhile pyIsSpace).length)).take
          (p - (pos + ((orig.drop pos).takeWhile pyIsSpace).length)))]) : MRes))
        (((List.range' 1 (runLen notNPC orig
          (pos + ((orig.drop pos).takeWhile pyIsSpace).length))).reverse).map
          (fun x => pos + ((orig.drop pos).takeWhile pyIsSpace).length + x)) :=
    rfl
  rw [hstep2, hrun2, hd]
  simp only [List.length_cons]
  rw [range'_rev_map]
  apply tryPos_cons_some
  have hdlen : d0.length + 1 =
      ((orig.drop pos).dropWhile pyIsSpace).length := by
    rw [hd]
    rfl
  have harith : pos + ((orig.drop pos).takeWhile pyIsSpace).length +
      ((orig.drop pos).dropWhile pyIsSpace).length -
      (pos + ((orig.drop pos).takeWhile pyIsSpace).length) =
      ((orig.drop pos).dropWhile pyIsSpace).length := by omega
  rw [hdlen, harith, hld, List.take_length, hlen, hd]

theorem ciPrefix_length_le (ws cs : List Char)
    (h : ciPrefix ws cs = true) : ws.length ≤ cs.length := by
  induction ws generalizing cs with
  | nil => simp
  | cons w ws ih =>
    cases cs with
    | nil => simp [ciPrefix] at h
    | cons c cs =>
      simp only [ciPrefix, Bool.and_eq_true] at h
      simpa using ih cs h.2

/-- `matchAt` of the `Posted:` label pattern succeeds at exactly the
positions where the label is a case-insensitive prefix, capturing the
left-trimmed remainder. -/
theorem matchAt_posted (orig : List Char) (pos : Nat)
    (hpre : ciPrefix "Posted:".data (orig.drop pos) = true)
    (hall : ∀ c ∈ orig.drop (pos + 7), notNPC c = true)
    (hne : (orig.drop (pos + 7)).dropWhile pyIsSpace ≠ []) :
    matchAt (labelCap "Posted:") orig pos =
      some (pos, orig.length,
        [(1, (orig.drop (pos + 7)).dropWhile pyIsSpace)]) := by
  have hpos : pos + 7 ≤ orig.length := by
    have h1 := ciPrefix_length_le _ _ hpre
    have h2 : ("Posted:".data).length = 7 := rfl
    rw [h2, List.length_drop] at h1
    omega
  unfold matchAt labelCap
  have hstep : matchRe (Re.seq (litCI "Posted:")
      (Re.seq (Re.starG pyIsSpace) (Re.grp 1 (Re.plusG notNPC)))) orig pos []
      (fun e gs => some ((pos, e, gs) : MRes)) =
      matchRe (litCI "Posted:") orig pos []
        (fun p g => matchRe (Re.seq (Re.starG pyIsSpace)
          (Re.grp 1 (Re.plusG notNPC))) orig p g
          (fun e gs => some ((pos, e, gs) : MRes))) := rfl
  rw [hstep, matchRe_litCI, if_pos hpre]
  exact matchRe_postedTail orig (pos + 7) pos hpos hall hne

theorem matchAt_posted_none (orig : List Char) (i : Nat)
    (h : ciPrefix "Posted:".data (orig.drop i) = false) :
    matchAt (labelCap "Posted:") orig i = none := by
  unfold matchAt labelCap
  have hstep : matchRe (Re.seq (litCI "Posted:")
      (Re.seq (Re.starG pyIsSpace) (Re.grp 1 (Re.plusG notNPC)))) orig i []
      (fun e gs => some ((i, e, gs) : MRes)) =
      matchRe (litCI "Posted:") orig i []
        (fun p g => matchRe (Re.seq (Re.starG pyIsSpace)
          (Re.grp 1 (Re.plusG notNPC))) orig p g
          (fun e gs => some ((i, e, gs) : MRes))) := rfl
  rw [hstep, matchRe_litCI, h]
  rfl

theorem firstSome_append_none {α β : Type} (f : α → Option β)
    (xs ys : List α) (hx : ∀ x ∈ xs, f x = none) :
    firstSome f (xs ++ ys) = firstSome f ys := by
  induction xs with
  | nil => rfl
  | cons x xs ih =>
    simp only [List.cons_append, firstSome, hx x (by simp)]
    exact ih fun y hy => hx y (by simp [hy])

theorem firstSome_cons_some {α β : Type} (f : α → Option β) (x : α)
    (xs : List α) (r : β) (h : f x = some r) :
    firstSome f (x :: xs) = some r := by
  simp [firstSome, h]

/-- Leftmost-search of the `Posted:` label pattern: if no position
before `p` carries the (case-insensitive) label and `p` does, the search
reports the match at `p`. -/
theorem searchFrom_posted (orig : List Char) (p : Nat)
    (hp : p ≤ orig.length)
    (hfail : ∀ i < p, ciPrefix "Posted:".data (orig.drop i) = false)
    (hpre : ciPrefix "Posted:".data (orig.drop p) = true)
    (hall : ∀ c ∈ orig.drop (p + 7), notNPC c = true)
    (hne : (orig.drop (p + 7)).dropWhile pyIsSpace ≠ []) :
    searchFrom (labelCap "Posted:") orig 0 =
      some (p, orig.length,
        [(1, (orig.drop (p + 7)).dropWhile pyIsSpace)]) := by
  unfold searchFrom
  have hsub : orig.length + 1 - 0 = orig.length + 1 := by omega
  rw [hsub]
  have hsplit : List.range' 0 (orig.length + 1) =
      List.range' 0 p ++ List.range' p (orig.length + 1 - p) := by
    have h := List.range'_append_1 0 p (orig.length + 1 - p)
    rw [Nat.zero_add] at h
    have harr : orig.length + 1 - p + p = orig.length + 1 := by omega
    rw [harr] at h
    exact h.symm
  rw [hsplit]
  rw [firstSome_append_none _ _ _ ?hnone]
  case hnone =>
    intro x hx
    rw [List.mem_range'] at hx
    obtain ⟨i, hi, rfl⟩ := hx
    exact matchAt_posted_none orig _ (hfail _ (by omega))
  have hlen1 : orig.length + 1 - p = (orig.length - p) + 1 := by omega
  rw [hlen1, List.range'_succ]
  exact firstSome_cons_some _ _ _ _ (matchAt_posted orig p hpre hall hne)

/-- Counterexample to C8: the source returns `match.group(1)` with no
`.strip()`, so trailing whitespace inside the captured text is kept —
the returned value is not the trimmed `<text>`. -/
theorem posted_date_not_trimmed :
    extract_posted_date "Posted: 3 days ago " = "3 days ago " ∧
    "3 days ago " ≠ "3 days ago" := ⟨rfl, by decide⟩

/-- C8 (amended): for a snippet whose first (case-insensitive)
occurrence of the label is `"Posted: <text>"` with `<text>` free of
newline/period/comma and not all whitespace, `extract_posted_date`
returns `<text>` with only its leading whitespace removed (absorbed by
the pattern's `\s*`) and trailing whitespace kept verbatim; the labeled
pattern outranks the relative-time and absolute-date patterns that may
also occur inside `<text>` or the prefix. -/
theorem posted_label_wins_left_trimmed (a t : String)
    (hchars : ∀ c ∈ t.data, notNPC c = true)
    (hnonblank : t.data.dropWhile pyIsSpace ≠ [])
    (hfirst : ∀ i < a.data.length,
      ciPrefix "Posted:".data ((a ++ "Posted: " ++ t).data.drop i) = false) :
    extract_posted_date (a ++ "Posted: " ++ t) =
      String.mk (t.data.dropWhile pyIsSpace) := by
  have hdata : (a ++ "Posted: " ++ t).data =
      a.data ++ ('P' :: 'o' :: 's' :: 't' :: 'e' :: 'd' :: ':' :: ' ' ::
        t.data) := by
    rw [String.data_append, String.data_append, List.append_assoc]
    rfl
  have hdropP : (a ++ "Posted: " ++ t).data.drop a.data.length =
      'P' :: 'o' :: 's' :: 't' :: 'e' :: 'd' :: ':' :: ' ' :: t.data := by
    rw [hdata]
    exact List.drop_left _ _
  have hdrop7 : (a ++ "Posted: " ++ t).data.drop (a.data.length + 7) =
      ' ' :: t.data := by
    rw [← List.drop_drop, hdropP]
    rfl
  have hpre : ciPrefix "Posted:".data
      ((a ++ "Posted: " ++ t).data.drop a.data.length) = true := by
    rw [hdropP]
    have h7 : "Posted:".data = ['P', 'o', 's', 't', 'e', 'd', ':'] := rfl
    rw [h7]
    simp [ciPrefix, ciEq]
  have hdw : (' ' :: t.data).dropWhile pyIsSpace =
      t.data.dropWhile pyIsSpace := by
    have hsp : pyIsSpace ' ' = true := rfl
    rw [List.dropWhile_cons, if_pos hsp]
  have hall : ∀ c ∈ (a ++ "Posted: " ++ t).data.drop (a.data.length + 7),
      notNPC c = true := by
    rw [hdrop7]
    intro c hc
    rcases List.mem_cons.mp hc with rfl | hct
    · rfl
    · exact hchars c hct
  have hne : ((a ++ "Posted: " ++ t).data.drop
      (a.data.length + 7)).dropWhile pyIsSpace ≠ [] := by
    rw [hdrop7, hdw]
    exact hnonblank
  have hp : a.data.length ≤ (a ++ "Posted: " ++ t).data.length := by
    rw [hdata, List.length_append]
    omega
  have hsearch : reSearch (labelCap "Posted:") (a ++ "Posted: " ++ t) =
      some (a.data.length, (a ++ "Posted: " ++ t).data.length,
        [(1, t.data.dropWhile pyIsSpace)]) := by
    unfold reSearch
    rw [searchFrom_posted (a ++ "Posted: " ++ t).data a.data.length hp
      hfirst hpre hall hne, hdrop7, hdw]
  unfold extract_posted_date
  have hfd : firstDate datePatterns (a ++ "Posted: " ++ t) =
      some (groupVal 1 (a.data.length, (a ++ "Posted: " ++ t).data.length,
        [(1, t.data.dropWhile pyIsSpace)])) := by
    simp only [datePatterns, firstDate, hsearch]
  rw [hfd]
  simp only [Option.getD_some, groupVal, List.find?]
  rfl

/-- Witness for C8 (amended): a prefix containing other text, a payload
with leading and trailing whitespace and an embedded relative-time
phrase; the label capture wins and only the left side is trimmed. -/
theorem posted_label_wins_left_trimmed_witness :
    extract_posted_date ("Note " ++ "Posted: " ++ " 3 days ago ") =
      String.mk ((" 3 days ago " : String).data.dropWhile pyIsSpace) :=
  posted_label_wins_left_trimmed "Note " " 3 days ago " (by decide)
    (by decide) (by decide)

/-! ### C9 -/

theorem attachMetadata_success (r : AgentResult) (af : AppliedFilters)
    (sal : String) : (attachMetadata r af sal).success = r.success := by
  unfold attachMetadata
  by_cases hr : r.success
  · rw [if_pos hr]
    dsimp only
    split <;> rfl
  · rw [if_neg hr]

theorem attachMetadata_applied (r : AgentResult) (af : AppliedFilters)
    (sal : String) (hr : r.success = true) :
    (attachMetadata r af sal).applied_filters = some af := by
  unfold attachMetadata
  rw [if_pos hr]
  dsimp only
  split <;> rfl

/-- In every successful tool result the `applied_filters` key carries
exactly the dictionary built from the request. -/
theorem agent_success_applied_filters (apiKey sei : Option String)
    (provider : ProviderFn) (providerF : ProviderFFn) (llm : LlmFn)
    (avail : Bool) (kw loc jt el co ind dr : String) (n : Int)
    (pm sal wa jf : String) (inc ex : Bool)
    (hs : (agent_search_linkedin_jobs apiKey sei provider providerF llm
        avail kw loc jt el co ind dr n pm sal wa jf inc ex).success =
      true) :
    (agent_search_linkedin_jobs apiKey sei provider providerF llm avail
        kw loc jt el co ind dr n pm sal wa jf inc ex).applied_filters =
      some (buildAppliedFilters kw loc jt el co ind dr wa jf sal ex inc) := by
  revert hs
  unfold agent_search_linkedin_jobs
  split
  · intro hs; simp at hs
  · dsimp only
    intro hs
    rw [attachMetadata_success] at hs
    exact attachMetadata_applied _ _ _ hs

/-- C9: every unset optional filter dimension of a successful tool
result appears in `applied_filters` as the literal `"all <dimension>"`
placeholder — present as a key and never an empty string. -/
theorem unset_filters_all_placeholders (apiKey sei : Option String)
    (provider : ProviderFn) (providerF : ProviderFFn) (llm : LlmFn)
    (avail : Bool) (kw loc jt el co ind dr : String) (n : Int)
    (pm sal wa jf : String) (inc ex : Bool)
    (hs : (agent_search_linkedin_jobs apiKey sei provider providerF llm
        avail kw loc jt el co ind dr n pm sal wa jf inc ex).success =
      true) :
    ∃ af, (agent_search_linkedin_jobs apiKey sei provider providerF llm
        avail kw loc jt el co ind dr n pm sal wa jf inc ex).applied_filters =
        some af ∧
      (pyStrip loc = "" → af.location = "all locations") ∧
      (pyStrip jt = "" → af.job_type = "all types") ∧
      (pyStrip el = "" → af.experience_level = "all levels") ∧
      (pyStrip co = "" → af.company = "all companies") ∧
      (pyStrip ind = "" → af.industry = "all industries") ∧
      (pyStrip wa = "" → af.work_arrangement = "all arrangements") ∧
      (pyStrip jf = "" → af.job_function = "all functions") := by
  refine ⟨buildAppliedFilters kw loc jt el co ind dr wa jf sal ex inc,
    agent_success_applied_filters apiKey sei provider providerF llm avail
      kw loc jt el co ind dr n pm sal wa jf inc ex hs,
    ?_, ?_, ?_, ?_, ?_, ?_, ?_⟩ <;>
    (intro h; simp [buildAppliedFilters, h])

/-! ### C7 -/

/-- Every company candidate accepted from the title loop passed the
length and noise-word filters. -/
theorem firstTitleCompany_spec (ps : List Re) (t c : String)
    (h : firstTitleCompany ps t = some c) :
    c.length > 2 ∧ hasNoiseWord c = false := by
  induction ps with
  | nil => simp [firstTitleCompany] at h
  | cons p ps ih =>
    unfold firstTitleCompany at h
    cases hs : reSearch p t with
    | none => rw [hs] at h; exact ih h
    | some m =>
      rw [hs] at h
      dsimp only at h
      split at h
      · rename_i hcond
        obtain rfl : pyStrip (groupVal 1 m) = c := by injection h
        simp only [Bool.and_eq_true, decide_eq_true_eq,
          Bool.not_eq_true'] at hcond
        exact ⟨hcond.1, hcond.2⟩
      · exact ih h

/-- Every company candidate accepted from the snippet loop passed the
length filter (the source applies no noise-word filter there). -/
theorem firstSnippetCompany_spec (ps : List Re) (s c : String)
    (h : firstSnippetCompany ps s = some c) : c.length > 2 := by
  induction ps with
  | nil => simp [firstSnippetCompany] at h
  | cons p ps ih =>
    unfold firstSnippetCompany at h
    cases hs : reSearch p s with
    | none => rw [hs] at h; exact ih h
    | some m =>
      rw [hs] at h
      dsimp only at h
      split at h
      · rename_i hcond
        obtain rfl : pyStrip (groupVal 1 m) = c := by injection h
        exact hcond
      · exact ih h

/-- Counterexample to C7: the noise-word filter applies only to
title-derived candidates; a snippet label candidate containing the
noise word `"hiring"` is returned, not rejected to the
`"Unknown Company"` sentinel. -/
theorem company_noise_not_rejected :
    extract_company_name "" "Company: Hiring Solutions" =
      "Hiring Solutions" ∧
    hasNoiseWord "Hiring Solutions" = true ∧
    "Hiring Solutions" ≠ "Unknown Company" := ⟨rfl, rfl, by decide⟩

/-- C7 (amended): `extract_company_name` never throws, never returns an
empty string; candidates from the title loop are rejected under 3
characters or when containing a noise word, snippet label candidates
only under 3 characters; when no pattern passes its filter the fixed
`"Unknown Company"` sentinel is returned. -/
theorem extract_company_filters (title snippet : String) :
    extract_company_name title snippet ≠ "" ∧
    (extract_company_name title snippet = "Unknown Company" ∨
      (extract_company_name title snippet).length > 2) ∧
    (∀ c, firstTitleCompany titleCompanyPatterns title = some c →
      c.length > 2 ∧ hasNoiseWord c = false) ∧
    (∀ c, firstSnippetCompany snippetCompanyPatterns snippet = some c →
      c.length > 2) ∧
    (firstTitleCompany titleCompanyPatterns title = none →
      firstSnippetCompany snippetCompanyPatterns snippet = none →
      extract_company_name title snippet = "Unknown Company") := by
  cases ht : firstTitleCompany titleCompanyPatterns title with
  | some c0 =>
    have hval : extract_company_name title snippet = c0 := by
      unfold extract_company_name
      rw [ht]
    have hspec := firstTitleCompany_spec titleCompanyPatterns title c0 ht
    rw [hval]
    refine ⟨?_, Or.inr hspec.1, ?_, ?_, ?_⟩
    · intro hemp
      rw [hemp] at hspec
      simp at hspec
    · intro c hc
      obtain rfl : c0 = c := by injection hc
      exact hspec
    · intro c hc
      exact firstSnippetCompany_spec snippetCompanyPatterns snippet c hc
    · intro hn
      exact Option.noConfusion hn
  | none =>
    cases hsn : firstSnippetCompany snippetCompanyPatterns snippet with
    | some c1 =>
      have hval : extract_company_name title snippet = c1 := by
        unfold extract_company_name
        rw [ht, hsn]
      have hspec := firstSnippetCompany_spec snippetCompanyPatterns snippet
        c1 hsn
      rw [hval]
      refine ⟨?_, Or.inr hspec, ?_, ?_, ?_⟩
      · intro hemp
        rw [hemp] at hspec
        simp at hspec
      · intro c hc
        exact Option.noConfusion hc
      · intro c hc
        obtain rfl : c1 = c := by injection hc
        exact hspec
      · intro _ hn
        exact Option.noConfusion hn
    | none =>
      have hval : extract_company_name title snippet = "Unknown Company" := by
        unfold extract_company_name
        rw [ht, hsn]
      rw [hval]
      refine ⟨by decide, Or.inl rfl, ?_, ?_, fun _ _ => rfl⟩
      · intro c hc
        exact Option.noConfusion hc
      · intro c hc
        exact Option.noConfusion hc

/-- Witness for C7 (amended): evaluated on a title-pattern hit. -/
theorem extract_company_filters_witness :
    "Google".length > 2 ∧ hasNoiseWord "Google" = false :=
  (extract_company_filters "Engineer at Google" "").2.2.1 "Google" rfl

/-- Witness for C9: a successful search with every optional filter left
empty shows all seven placeholders. -/
theorem unset_filters_all_placeholders_witness :
    ∃ af, (agent_search_linkedin_jobs (some "key") (some "cx") providerOk1
        (fun _ _ => .ok ⟨some [sampleItem]⟩) llmErr true "python" "" "" ""
        "" "" "m1" 2 "manual" "" "" "" true false).applied_filters =
        some af ∧
      (pyStrip "" = "" → af.location = "all locations") ∧
      (pyStrip "" = "" → af.job_type = "all types") ∧
      (pyStrip "" = "" → af.experience_level = "all levels") ∧
      (pyStrip "" = "" → af.company = "all companies") ∧
      (pyStrip "" = "" → af.industry = "all industries") ∧
      (pyStrip "" = "" → af.work_arrangement = "all arrangements") ∧
      (pyStrip "" = "" → af.job_function = "all functions") :=
  unset_filters_all_placeholders (some "key") (some "cx") providerOk1
    (fun _ _ => .ok ⟨some [sampleItem]⟩) llmErr true "python" "" "" "" ""
    "" "m1" 2 "manual" "" "" "" true false (by decide)

end CareerAgent
